import Mathlib

/-!
Verification development for the voice-pipeline core of this repository.

The embedding below models, faithfully to the Python source:

* `Service/voice_service.py`:
  - `ConversationStateProcessor` (lifecycle edge detection),
  - `TranscriptionProcessor` (user/bot transcript recording),
  - `OrderKnowledgeProcessor` (order-number extraction via the two regular
    expressions, intent detection, deduplicated system-fact injection);
* `Service/transcription_service.py`: the class-level transcript hub
  (`messages` / `connections`, `add_message`, `_send_update`,
  `transcription_socket_endpoint` subscribe/teardown paths);
* `Service/order_service.py`: the static order store, `get_order_by_id`,
  `_get_order_items`, `format_order_details`.

Modelling conventions: Python strings are `String` / `List Char`; Python
`dict` built from a list is an association list with last-binding-wins
lookup; `set` is `Finset Nat` (connection handles are opaque ids); money
(Python `float`) is `ℚ`; f-string rendering of the order summary is kept at
the structured level (one `Line` constructor per rendered line, carrying the
interpolated values), since no claim depends on the decimal rendering of
numbers; the long fixed English sentences interpolated into system messages
are likewise kept structured (`SysMsgContent`), which is injective in the
same data the rendered strings are.
-/

/-! ## Character classes (Python `re` semantics, ASCII fragment) -/

/-- Python `\d` on the ASCII inputs this service sees: `0`-`9`. -/
def isPyDigit (c : Char) : Bool := c.isDigit

/-- Python `\s` / `str.strip` whitespace: space, tab, newline, CR, VT, FF. -/
def isPySpace (c : Char) : Bool :=
  c = ' ' || c = '\t' || c = '\n' || c = '\r' || c = '\x0b' || c = '\x0c'

/-- Python `\w` word characters (ASCII fragment): letters, digits, underscore. -/
def isWordChar (c : Char) : Bool := c.isAlphanum || c = '_'

/-- Case-insensitive literal match: does `cs` start with the (lowercase)
pattern `pat`?  Models `re.IGNORECASE` literal atoms. -/
def startsWithLower : List Char → List Char → Bool
  | [], _ => true
  | _ :: _, [] => false
  | p :: ps, c :: cs => (c.toLower == p) && startsWithLower ps cs

/-- Case-sensitive literal match, used for substring containment. -/
def startsWithChars : List Char → List Char → Bool
  | [], _ => true
  | _ :: _, [] => false
  | p :: ps, c :: cs => (p == c) && startsWithChars ps cs

/-- Python `needle in hay` substring containment. -/
def containsSub (needle : List Char) : List Char → Bool
  | [] => needle.isEmpty
  | c :: rest => startsWithChars needle (c :: rest) || containsSub needle rest

/-- Python `str.strip()` on a character list. -/
def pyStripChars (cs : List Char) : List Char :=
  ((cs.dropWhile isPySpace).reverse.dropWhile isPySpace).reverse

/-- Python `str.strip()`. -/
def pyStrip (s : String) : String := String.mk (pyStripChars s.toList)

/-! ## The two regular expressions of `OrderKnowledgeProcessor._extract_order_number`

Pattern (a): `order\s*(?:number|no\.?|#)?(?:\s*(?:is|:))?\s*(\d{3,})` with
`re.IGNORECASE`, searched left to right (`re.search`).  Pattern (b), the
fallback: `\b(\d{3,})\b`.  Both are embedded as explicit matchers with
the regex engine's leftmost-match / ordered-alternation / greedy semantics.
(Each `\s*` and the greedy `\.?` are safe to take maximally here because no
continuation of them can start with the character they consume.) -/

/-- `\d{3,}` with its capture: greedily take the digit run at the head of
`cs`; succeed iff it has at least 3 digits. -/
def matchDigits3 (cs : List Char) : Option (List Char) :=
  let ds := cs.takeWhile isPyDigit
  if 3 ≤ ds.length then some ds else none

/-- The tail `(?:\s*(?:is|:))?\s*(\d{3,})` of pattern (a), tried at `cs`
(the position after the optional keyword group). -/
def matchTailAfterKw (cs : List Char) : Option (List Char) :=
  let cs1 := cs.dropWhile isPySpace
  (if startsWithLower ['i', 's'] cs1 then matchDigits3 ((cs1.drop 2).dropWhile isPySpace)
   else none)
  <|> (if startsWithLower [':'] cs1 then matchDigits3 ((cs1.drop 1).dropWhile isPySpace)
   else none)
  <|> matchDigits3 cs1

/-- The part of pattern (a) after the literal `order`:
`\s*(?:number|no\.?|#)?` followed by `matchTailAfterKw`, with the regex
engine's ordered alternation (`number`, then `no.`, then `no`, then `#`,
then the group absent). -/
def matchAfterOrder (cs : List Char) : Option (List Char) :=
  let cs1 := cs.dropWhile isPySpace
  (if startsWithLower ['n', 'u', 'm', 'b', 'e', 'r'] cs1 then matchTailAfterKw (cs1.drop 6)
   else none)
  <|> (if startsWithLower ['n', 'o'] cs1 then
        (if startsWithLower ['.'] (cs1.drop 2) then matchTailAfterKw (cs1.drop 3) else none)
        <|> matchTailAfterKw (cs1.drop 2)
   else none)
  <|> (if startsWithLower ['#'] cs1 then matchTailAfterKw (cs1.drop 1) else none)
  <|> matchTailAfterKw cs1

/-- `re.search` for pattern (a): try every start position left to right;
a position can only succeed if the literal `order` (case-insensitively)
starts there. -/
def searchOrderNumber : List Char → Option (List Char)
  | [] => none
  | c :: rest =>
    (if startsWithLower ['o', 'r', 'd', 'e', 'r'] (c :: rest) then matchAfterOrder (rest.drop 4)
     else none)
    <|> searchOrderNumber rest

/-- The trailing `\b` test after a greedy digit run: fails iff the next
character is a word character. -/
def headIsWordChar : List Char → Bool
  | [] => false
  | s :: _ => isWordChar s

/-- `re.search` for the fallback pattern `\b(\d{3,})\b`.  `prevWord` says
whether the character just before the current position is a word character
(so `\b` holds at the current position iff the head is a word character and
`prevWord` is false, or symmetrically).  A greedy digit run that fails the
length or trailing-boundary test cannot be rescued by backtracking (any
shorter split puts the boundary between two digits), so the engine moves
the start position one character to the right. -/
def searchStandaloneFrom : Bool → List Char → Option (List Char)
  | _, [] => none
  | prevWord, c :: rest =>
    if !prevWord && isPyDigit c then
      let ds := c :: rest.takeWhile isPyDigit
      let suf := rest.dropWhile isPyDigit
      if 3 ≤ ds.length && !(headIsWordChar suf) then some ds
      else searchStandaloneFrom true rest
    else searchStandaloneFrom (isWordChar c) rest

/-- The fallback search started at the beginning of the text (where `\b`
holds iff the first character is a word character). -/
def searchStandalone (cs : List Char) : Option (List Char) :=
  searchStandaloneFrom false cs

/-- `OrderKnowledgeProcessor._extract_order_number`: pattern (a) first,
then the standalone fallback, else `None`. -/
def extract_order_number (text : String) : Option String :=
  match searchOrderNumber text.toList with
  | some ds => some (String.mk ds)
  | none =>
    match searchStandalone text.toList with
    | some ds => some (String.mk ds)
    | none => none

/-- `OrderKnowledgeProcessor._detect_order_intent`. -/
def detect_order_intent (text : String) : Bool :=
  let normalized := text.toList.map Char.toLower
  containsSub "order status".toList normalized
  || containsSub "track my order".toList normalized
  || containsSub "check my order".toList normalized
  || containsSub "order update".toList normalized
  || (containsSub "order".toList normalized && containsSub "status".toList normalized)

/-! ## Index-based characterization of the fallback pattern

Written from the spec sentence "any standalone run of 3+ digits anywhere in
the text; extraction returns the first such run": `runAt cs i` is the greedy
digit run starting at index `i`, and `standaloneAt cs i` says a `\b(\d{3,})\b`
match begins at index `i` (boundary before, at least 3 digits, boundary
after).  `standAux` generalizes the boundary at index 0 to an arbitrary
preceding-character class, which is what the left-to-right search recursion
preserves. -/

/-- The greedy digit run of `cs` starting at index `i`. -/
def runAt (cs : List Char) (i : Nat) : List Char :=
  (cs.drop i).takeWhile isPyDigit

/-- Generalized standalone-run test: `pw` tells whether the character
preceding `cs` is a word character (for the boundary at index `0`). -/
def standAux (pw : Bool) (cs : List Char) (i : Nat) : Bool :=
  (if i = 0 then !pw else !(isWordChar (cs.getD (i - 1) ' ')))
  && decide (3 ≤ (runAt cs i).length)
  && !(headIsWordChar ((cs.drop i).dropWhile isPyDigit))

/-- A standalone run of 3+ digits (`\b(\d{3,})\b`) begins at index `i`. -/
def standaloneAt (cs : List Char) (i : Nat) : Bool := standAux false cs i

/-- Do the next two characters continue a digit run? -/
def twoDigitsNext : List Char → Bool
  | d :: e :: _ => isPyDigit d && isPyDigit e
  | _ => false

/-- Does the text contain three consecutive digits anywhere?  (The negation
of "the only numbers in the text are 1-2 digit runs".) -/
def hasDigitRun3 : List Char → Bool
  | [] => false
  | c :: rest => (isPyDigit c && twoDigitsNext rest) || hasDigitRun3 rest

/-! ## Order store (`Service/order_service.py`) -/

/-- `OrderStatus` enum. -/
inductive OrderStatus
  | pending
  | processing
  | shipped
  | delivered
  | cancelled
deriving DecidableEq, Repr

/-- `ProductData` record (money modelled as `ℚ`). -/
structure ProductData where
  id : Nat
  name : String
  description : Option String
  price : ℚ
  stock_quantity : Nat
  sku : String
deriving DecidableEq, Repr

/-- `OrderData` record (`order_date` kept as its rendered string). -/
structure OrderData where
  id : Nat
  customer_id : Nat
  order_date : String
  total_amount : ℚ
  status : OrderStatus
deriving DecidableEq, Repr

/-- `OrderItemData` record. -/
structure OrderItemData where
  order_id : Nat
  product_id : Nat
  quantity : Nat
  unit_price : ℚ
deriving DecidableEq, Repr

/-- The loaded static store: the three lists of `store.json`, from which
`_load_static_data` builds its id-keyed dicts. -/
structure OrderStore where
  products : List ProductData
  orders : List OrderData
  order_items : List OrderItemData
deriving Repr

/-- Lookup in the dict `{p["id"]: p for p in products}`: a later list entry
with the same id overwrites an earlier one. -/
def productById (ps : List ProductData) (pid : Nat) : Option ProductData :=
  ps.foldl (fun acc p => if p.id = pid then some p else acc) none

/-- `OrderService.get_order_by_id` (dict built by `_load_static_data`,
last binding wins). -/
def get_order_by_id (store : OrderStore) (oid : Nat) : Option OrderData :=
  store.orders.foldl (fun acc o => if o.id = oid then some o else acc) none

/-- `_order_items_by_order[oid]`: grouping by `setdefault`/`append` keeps
the original relative order, i.e. it is a filter. -/
def itemsForOrder (store : OrderStore) (oid : Nat) : List OrderItemData :=
  store.order_items.filter (fun it => it.order_id = oid)

/-- One entry of the list `_get_order_items` builds for a resolvable item. -/
structure ItemDetail where
  product_name : String
  quantity : Nat
  unit_price : ℚ
  total : ℚ
  sku : String
deriving DecidableEq, Repr

/-- The detail dict `_get_order_items` appends
(`total = item.unit_price * item.quantity`). -/
def mkItemDetail (product : ProductData) (item : OrderItemData) : ItemDetail :=
  { product_name := product.name
    quantity := item.quantity
    unit_price := item.unit_price
    total := item.unit_price * (item.quantity : ℚ)
    sku := product.sku }

/-- The loop body of `_get_order_items`: a missing product (`if not
product: continue`) skips that line item and keeps going. -/
def resolveItems (ps : List ProductData) : List OrderItemData → List ItemDetail
  | [] => []
  | item :: rest =>
    match productById ps item.product_id with
    | none => resolveItems ps rest
    | some p => mkItemDetail p item :: resolveItems ps rest

/-- `OrderService._get_order_items`. -/
def get_order_items (store : OrderStore) (oid : Nat) : List ItemDetail :=
  resolveItems store.products (itemsForOrder store oid)

/-- One rendered line of `format_order_details`, kept structured: each
constructor is one f-string of the source with its interpolated values. -/
inductive Line
  | header (id : Nat)
  | orderDate (d : String)
  | statusLine (s : OrderStatus)
  | totalAmount (a : ℚ)
  | blank
  | itemsHeader
  | noItems
  | itemName (n : String)
  | itemQuantity (q : Nat)
  | itemPrice (p : ℚ)
  | itemSubtotal (t : ℚ)
deriving DecidableEq, Repr

/-- The four lines appended per resolvable item. -/
def itemLines (d : ItemDetail) : List Line :=
  [Line.itemName d.product_name, Line.itemQuantity d.quantity,
   Line.itemPrice d.unit_price, Line.itemSubtotal d.total]

/-- `OrderService.format_order_details` (the `"\n".join` is left implicit:
the result is the list of lines joined). -/
def format_order_details (store : OrderStore) (order : OrderData) : List Line :=
  let items := get_order_items store order.id
  [Line.header order.id, Line.orderDate order.order_date,
   Line.statusLine order.status, Line.totalAmount order.total_amount,
   Line.blank, Line.itemsHeader]
  ++ (if items.isEmpty then [Line.noItems] else items.flatMap itemLines)

/-! ## System-fact injection (`OrderKnowledgeProcessor._add_system_message`) -/

/-- Python dict `get` on an association list with unique keys. -/
def dictGetS {α : Type} (l : List (String × α)) (k : String) : Option α :=
  (l.find? (fun p => p.1 = k)).map (fun p => p.2)

/-- Python dict `d[k] = v` on an association list with unique keys:
replace in place if present (insertion order is kept), else append. -/
def dictSetS {α : Type} (l : List (String × α)) (k : String) (v : α) : List (String × α) :=
  if (l.find? (fun p => p.1 = k)).isSome then
    l.map (fun p => if p.1 = k then (k, v) else p)
  else l ++ [(k, v)]

/-- Python truthiness of the `tag` argument (`if tag:`): `None` and the
empty string are falsy. -/
def tagKey : Option String → Option String
  | some tg => if tg = "" then none else some tg
  | none => none

/-- `OrderKnowledgeProcessor._add_system_message`, generic in the content
type: given the LLM context messages (role-content pairs) and the
`_last_system_messages` tag map, either skip (same truthy tag, identical
content) or append a system message and record the tag binding. -/
def add_system_message {α : Type} [DecidableEq α]
    (ctx lastSys : List (String × α)) (content : α) (tag : Option String) :
    List (String × α) × List (String × α) :=
  match tagKey tag with
  | some tg =>
    if dictGetS lastSys tg = some content then (ctx, lastSys)
    else (ctx ++ [("system", content)], dictSetS lastSys tg content)
  | none => (ctx ++ [("system", content)], lastSys)

/-! ## Frame model and directions (pipecat frames used by the stages) -/

/-- One transcript entry of the hub (`{"type", "message", "time"}` dict). -/
structure TranscriptMessage where
  type : String
  message : String
  time : String
deriving DecidableEq, Repr

/-- The payload of an `OutputTransportMessageFrame`, kept structured (the
`json.dumps` serialization is out of scope): either a conversation-state
update or a full transcript snapshot. -/
inductive TransportPayload
  | stateUpdate (value : String)
  | transcriptSnapshot (entries : List TranscriptMessage)
deriving DecidableEq, Repr

/-- The frame variants the modelled stages inspect or forward. -/
inductive Frame
  | startFrame
  | inputAudioRaw (size : Nat)
  | userStartedSpeaking
  | userStoppedSpeaking
  | botStartedSpeaking
  | botStoppedSpeaking
  | textFrame (text : String)
  | outputTransportMessage (payload : TransportPayload)
deriving DecidableEq, Repr

/-- `pipecat.FrameDirection`. -/
inductive FrameDirection
  | downstream
  | upstream
deriving DecidableEq, Repr

/-! ## Conversation state tracker (`ConversationStateProcessor`) -/

/-- `ConversationStateProcessor._notify`: emit a state transport message
only when the new state differs from `_state` (initially `None`). -/
def csp_notify (st : Option String) (s : String) :
    Option String × List TransportPayload :=
  if st = some s then (st, [])
  else (some s, [TransportPayload.stateUpdate s])

/-- `ConversationStateProcessor.process_frame`: the lifecycle-to-state
mapping (`StartFrame`/`UserStartedSpeaking` need `DOWNSTREAM`; the bot
frames are direction-independent), returning the new `_state` and the
state notifications pushed.  The original frame is always pushed afterwards
(forwarding is the identity and is left implicit here). -/
def csp_process_frame (st : Option String) (f : Frame) (dir : FrameDirection) :
    Option String × List TransportPayload :=
  match f, dir with
  | Frame.startFrame, FrameDirection.downstream => csp_notify st "listening"
  | Frame.userStartedSpeaking, FrameDirection.downstream => csp_notify st "listening"
  | Frame.userStoppedSpeaking, FrameDirection.downstream => csp_notify st "processing"
  | Frame.botStartedSpeaking, _ => csp_notify st "responding"
  | Frame.botStoppedSpeaking, _ => csp_notify st "listening"
  | _, _ => (st, [])

/-- Run the state tracker over a frame sequence, collecting every state
notification it pushes. -/
def csp_run (st : Option String) :
    List (Frame × FrameDirection) → Option String × List TransportPayload
  | [] => (st, [])
  | (f, d) :: rest =>
    let r1 := csp_process_frame st f d
    let r2 := csp_run r1.1 rest
    (r2.1, r1.2 ++ r2.2)

/-! ## Transcript broadcast hub (`TranscriptionService`)

Class-level state: `messages : List[Dict]`, `connections : Set[WebSocket]`.
Connections are modelled as opaque `Nat` handles.  `add_message` appends,
then (if any subscriber exists) serializes the whole sequence once and
delivers that snapshot to every current subscriber. -/

/-- The hub's process-wide state. -/
structure HubState where
  messages : List TranscriptMessage
  connections : Finset Nat
deriving DecidableEq

/-- `TranscriptionService.add_message` (the wall-clock timestamp is passed
in).  Returns the new state plus the snapshot delivered to every current
subscriber (`none` when there is no subscriber). -/
def hub_add_message (st : HubState) (ty msg time : String) :
    HubState × Option (List TranscriptMessage) :=
  let msgs := st.messages ++ [⟨ty, msg, time⟩]
  ({ st with messages := msgs },
   if st.connections = ∅ then none else some msgs)

/-- The subscribe path of `transcription_socket_endpoint`: accept, add the
connection, and (if entries exist) send the current full sequence to the
new subscriber.  Returns the new state and that initial snapshot. -/
def hub_subscribe (st : HubState) (c : Nat) :
    HubState × Option (List TranscriptMessage) :=
  ({ st with connections := insert c st.connections },
   if st.messages = [] then none else some st.messages)

/-- The teardown path of `transcription_socket_endpoint` (`finally:`):
discard the connection; if that leaves no connection, clear the entire
message sequence. -/
def hub_unsubscribe (st : HubState) (c : Nat) : HubState :=
  let conns := st.connections.erase c
  { messages := if conns = ∅ then [] else st.messages
    connections := conns }

/-- The failure path of `TranscriptionService._send_update`: a send error
discards that subscriber and nothing else. -/
def hub_send_update_failure (st : HubState) (c : Nat) : HubState :=
  { st with connections := st.connections.erase c }

/-- `add_message` when delivery to the subscribers in `fails` raises: each
failing delivery runs the `_send_update` failure path, so exactly the
failing subscribers are discarded; the appended messages are untouched. -/
def hub_add_message_failures (st : HubState) (ty msg time : String)
    (fails : Finset Nat) : HubState :=
  let msgs := st.messages ++ [⟨ty, msg, time⟩]
  if st.connections = ∅ then { st with messages := msgs }
  else { messages := msgs
         connections := st.connections.filter (fun c => c ∉ fails) }

/-! ## Transcript recorder (`TranscriptionProcessor`) -/

/-- The `role` constructor argument. -/
inductive Role
  | user
  | bot
deriving DecidableEq, Repr

/-- Per-stage state: the role and the bot chunk buffer. -/
structure TPState where
  role : Role
  bot_buffer : String
deriving DecidableEq, Repr

/-- `TranscriptionProcessor.process_frame`, threading the hub state (its
`add_message` calls hit the class-level `TranscriptionService`): returns
the new stage state, the new hub state, and the frames pushed (a transcript
snapshot first for user text, then always the original frame). -/
def tp_process_frame (st : TPState) (hub : HubState) (time : String)
    (f : Frame) (dir : FrameDirection) :
    TPState × HubState × List (Frame × FrameDirection) :=
  match f with
  | Frame.textFrame t =>
    match st.role with
    | Role.bot => ({ st with bot_buffer := st.bot_buffer ++ t }, hub, [(f, dir)])
    | Role.user =>
      let hub1 := (hub_add_message hub "user" t time).1
      (st, hub1,
       [(Frame.outputTransportMessage (TransportPayload.transcriptSnapshot hub1.messages),
         FrameDirection.downstream),
        (f, dir)])
  | Frame.botStoppedSpeaking =>
    match st.role with
    | Role.bot =>
      let text := pyStrip st.bot_buffer
      if text = "" then ({ st with bot_buffer := "" }, hub, [(f, dir)])
      else ({ st with bot_buffer := "" }, (hub_add_message hub "bot" text time).1, [(f, dir)])
    | Role.user => (st, hub, [(f, dir)])
  | _ => (st, hub, [(f, dir)])

/-- Run the transcript recorder over a sequence of (timestamped) frames,
collecting everything it pushes. -/
def tp_run (st : TPState) (hub : HubState) :
    List (String × Frame × FrameDirection) →
    TPState × HubState × List (Frame × FrameDirection)
  | [] => (st, hub, [])
  | (time, f, d) :: rest =>
    let r1 := tp_process_frame st hub time f d
    let r2 := tp_run r1.1 r1.2.1 rest
    (r2.1, r2.2.1, r1.2.2 ++ r2.2.2)

/-! ## Order knowledge injector (`OrderKnowledgeProcessor`) -/

/-- The content of an injected system message, kept structured: the three
message templates of `process_frame`, carrying exactly the data interpolated
into them (the fixed English sentences, including the per-status tone hint
of `_status_summary`, are functions of these fields). -/
inductive SysMsgContent
  | orderLookup (orderNumber : String) (details : List Line)
      (hintId : Nat) (hintStatus : OrderStatus)
  | orderNotFound (orderNumber : String)
  | askForOrderNumber
deriving DecidableEq, Repr

/-- Python `int()` on the extracted digit string. -/
def digitsToNat (s : String) : Nat :=
  s.toList.foldl (fun acc c => acc * 10 + (c.toNat - 48)) 0

/-- The per-session mutable state of `OrderKnowledgeProcessor`, with the
LLM context's message list (`self._context`) inlined as the sequence of
messages this stage appended to it. -/
structure OrderKnowledgeState where
  awaiting_order_number : Bool
  last_detected_order_number : Option String
  last_system_messages : List (String × SysMsgContent)
  context_messages : List (String × SysMsgContent)
deriving DecidableEq

/-- Apply `_add_system_message` inside the processor state. -/
def ok_add_system (st : OrderKnowledgeState) (content : SysMsgContent)
    (tag : Option String) : OrderKnowledgeState :=
  let r := add_system_message st.context_messages st.last_system_messages content tag
  { st with context_messages := r.1, last_system_messages := r.2 }

/-- `OrderKnowledgeProcessor.process_frame`: returns the new state, the
frames pushed, and the list of Order Data Store lookups performed
(`get_order_by_id` call arguments), in order. -/
def ok_process_frame (store : OrderStore) (st : OrderKnowledgeState)
    (f : Frame) (dir : FrameDirection) :
    OrderKnowledgeState × List (Frame × FrameDirection) × List Nat :=
  match f, dir with
  | Frame.textFrame t, FrameDirection.downstream =>
    let text := pyStrip t
    if text = "" then (st, [(f, dir)], [])
    else
      match extract_order_number text with
      | some n =>
        if some n ≠ st.last_detected_order_number then
          let st1 := { st with last_detected_order_number := some n }
          let oid := digitsToNat n
          match get_order_by_id store oid with
          | some o =>
            let st2 := { st1 with awaiting_order_number := false }
            let details := format_order_details store o
            (ok_add_system st2 (SysMsgContent.orderLookup n details o.id o.status)
               (some "order-lookup"),
             [(f, dir)], [oid])
          | none =>
            (ok_add_system st1 (SysMsgContent.orderNotFound n) (some "order-not-found"),
             [(f, dir)], [oid])
        else (st, [(f, dir)], [])
      | none =>
        if detect_order_intent text && !st.awaiting_order_number then
          (ok_add_system { st with awaiting_order_number := true }
             SysMsgContent.askForOrderNumber (some "order-knowledge-base"),
           [(f, dir)], [])
        else (st, [(f, dir)], [])
  | _, _ => (st, [(f, dir)], [])

/-! ## Concrete fixtures used as test inputs by the theorems below -/

/-- A product present in the store. -/
def exProduct : ProductData :=
  { id := 1, name := "Widget", description := none, price := 5,
    stock_quantity := 10, sku := "SKU-1" }

/-- Order 1003, status `shipped`, with a stored total (50) that is not the
sum of its item subtotals (2 * 5 + 1 * 7 = 17): the two fields are
independent in the source data. -/
def exOrder : OrderData :=
  { id := 1003, customer_id := 42, order_date := "2024-01-01 10:00",
    total_amount := 50, status := OrderStatus.shipped }

/-- A store where order 1003 has two item lines: one resolvable (product 1)
and one whose `product_id` (999) is absent from the product table. -/
def exStore : OrderStore :=
  { products := [exProduct]
    orders := [exOrder]
    order_items :=
      [ { order_id := 1003, product_id := 1, quantity := 2, unit_price := 5 },
        { order_id := 1003, product_id := 999, quantity := 1, unit_price := 7 } ] }

/-- An injector state that has already extracted order number 1003. -/
def exOKState : OrderKnowledgeState :=
  { awaiting_order_number := false
    last_detected_order_number := some "1003"
    last_system_messages := []
    context_messages := [] }

/-! ## Helper lemmas -/

/-- Case analysis principle for `Option.orElse` as used by the matchers. -/
theorem orElse_eq_some {α : Type} (a b : Option α) (x : α) :
    (a <|> b) = some x ↔ a = some x ∨ (a = none ∧ b = some x) := by
  cases a <;> simp

/-- Looking up the key just set by `dictSetS` returns the new value. -/
theorem dictGetS_dictSetS {α : Type} (l : List (String × α)) (k : String) (v : α) :
    dictGetS (dictSetS l k v) k = some v := by
  induction l with
  | nil => simp [dictGetS, dictSetS]
  | cons p rest ih =>
    by_cases hp : p.1 = k
    · simp [dictSetS, List.find?_cons_of_pos, hp, dictGetS]
    · rcases hfind : (rest.find? (fun q => q.1 = k)).isSome with hT | hT
      · have : (List.find? (fun q => decide (q.1 = k)) (p :: rest)).isSome = false := by
          simp [List.find?_cons_of_neg, hp, hfind]
        simp only [dictSetS, this, Bool.false_eq_true, if_false]
        simp only [dictSetS, hfind, Bool.false_eq_true, if_false] at ih
        simpa [dictGetS, List.find?_cons_of_neg, hp] using ih
      · have : (List.find? (fun q => decide (q.1 = k)) (p :: rest)).isSome = true := by
          simp [List.find?_cons_of_neg, hp, hfind]
        simp only [dictSetS, this, if_true]
        simp only [dictSetS, hfind, if_true] at ih
        have hfp : (if p.1 = k then (k, v) else p) = p := by simp [hp]
        simpa [dictGetS, List.map_cons, hfp, List.find?_cons_of_neg, hp] using ih

/-- C1: system-fact injection is deduplicated per tag against the last
stored content.  Injecting (tag, c) twice appends exactly one context
message (when c is not already stored for the tag, else zero); injecting
(tag, c) then (tag, c₂) with c₂ ≠ c appends one more; and a single
injection appends a system message exactly when the content differs from
the previously stored content for that tag. -/
theorem system_fact_injection_dedup
    (ctx lastSys : List (String × String)) (tg c c₂ : String) (h : tg ≠ "") :
    ((add_system_message
        (add_system_message ctx lastSys c (some tg)).1
        (add_system_message ctx lastSys c (some tg)).2 c (some tg)).1.length
      = ctx.length + (if dictGetS lastSys tg = some c then 0 else 1))
    ∧ (c₂ ≠ c →
      ((add_system_message
          (add_system_message ctx lastSys c (some tg)).1
          (add_system_message ctx lastSys c (some tg)).2 c₂ (some tg)).1.length
        = ctx.length + (if dictGetS lastSys tg = some c then 0 else 1) + 1))
    ∧ ((add_system_message ctx lastSys c (some tg)).1
      = if dictGetS lastSys tg = some c then ctx else ctx ++ [("system", c)]) := by
  have hkey : tagKey (some tg) = some tg := by simp [tagKey, h]
  by_cases hdup : dictGetS lastSys tg = some c
  · refine ⟨?_, ?_, ?_⟩
    · simp [add_system_message, hkey, hdup]
    · intro hne
      have hc₂ : ¬dictGetS lastSys tg = some c₂ := by
        rw [hdup]; intro hx; exact hne (Option.some.inj hx).symm
      have hcc : ¬c = c₂ := fun hx => hne hx.symm
      simp [add_system_message, hkey, hdup, hc₂, hcc]
    · simp [add_system_message, hkey, hdup]
  · refine ⟨?_, ?_, ?_⟩
    · simp only [add_system_message, hkey, if_neg hdup]
      simp [dictGetS_dictSetS]
    · intro hne
      have hc₂ : ¬dictGetS (dictSetS lastSys tg c) tg = some c₂ := by
        rw [dictGetS_dictSetS]; intro hx; exact hne (Option.some.inj hx).symm
      simp only [add_system_message, hkey, if_neg hdup]
      simp [hc₂, hdup]
    · simp [add_system_message, hkey, hdup]

/-- Witness for C1 at a concrete input: tag `order-lookup`, contents `A`
then `B`, starting from an empty context and empty tag map. -/
theorem system_fact_injection_dedup_witness :
    ("order-lookup" : String) ≠ "" ∧
    ((add_system_message
        (add_system_message ([] : List (String × String)) [] "A" (some "order-lookup")).1
        (add_system_message ([] : List (String × String)) [] "A" (some "order-lookup")).2
        "A" (some "order-lookup")).1.length
      = ([] : List (String × String)).length
        + (if dictGetS ([] : List (String × String)) "order-lookup" = some "A" then 0 else 1)) ∧
    (("B" : String) ≠ "A" →
      ((add_system_message
          (add_system_message ([] : List (String × String)) [] "A" (some "order-lookup")).1
          (add_system_message ([] : List (String × String)) [] "A" (some "order-lookup")).2
          "B" (some "order-lookup")).1.length
        = ([] : List (String × String)).length
          + (if dictGetS ([] : List (String × String)) "order-lookup" = some "A" then 0 else 1) + 1)) := by
  have h := system_fact_injection_dedup [] [] "order-lookup" "A" "B" (by decide)
  exact ⟨by decide, h.1, h.2.1⟩

/-- C2: the transcript hub resets on last disconnect.  Teardown clears the
entire entry sequence exactly when the removal empties the subscriber set;
and the scenario subscribe(A), addMessage(user, hi), addMessage(bot, hello),
unsubscribe(A) leaves the entry sequence empty, after which subscribe(B)
sends no pre-reset snapshot and the next addMessage delivers to B a snapshot
containing only the new entry. -/
theorem hub_reset_on_last_disconnect :
    (∀ (st : HubState) (c : Nat),
      (hub_unsubscribe st c).messages
        = if st.connections.erase c = ∅ then [] else st.messages)
    ∧ (∀ (A B : Nat) (t1 t2 t3 sp tx : String),
      (hub_unsubscribe
        (hub_add_message
          (hub_add_message (hub_subscribe ⟨[], ∅⟩ A).1 "user" "hi" t1).1
          "bot" "hello" t2).1 A).messages = []
      ∧ (hub_subscribe (hub_unsubscribe
          (hub_add_message
            (hub_add_message (hub_subscribe ⟨[], ∅⟩ A).1 "user" "hi" t1).1
            "bot" "hello" t2).1 A) B).2 = none
      ∧ (hub_add_message (hub_subscribe (hub_unsubscribe
          (hub_add_message
            (hub_add_message (hub_subscribe ⟨[], ∅⟩ A).1 "user" "hi" t1).1
            "bot" "hello" t2).1 A) B).1 sp tx t3).2 = some [⟨sp, tx, t3⟩]
      ∧ (hub_add_message (hub_subscribe (hub_unsubscribe
          (hub_add_message
            (hub_add_message (hub_subscribe ⟨[], ∅⟩ A).1 "user" "hi" t1).1
            "bot" "hello" t2).1 A) B).1 sp tx t3).1.messages = [⟨sp, tx, t3⟩]) := by
  constructor
  · intro st c
    rfl
  · intro A B t1 t2 t3 sp tx
    have herase : (insert A (∅ : Finset Nat)).erase A = ∅ :=
      Finset.erase_insert (Finset.not_mem_empty A)
    have hBne : insert B (∅ : Finset Nat) ≠ ∅ := Finset.insert_ne_empty B ∅
    refine ⟨?_, ?_, ?_, ?_⟩ <;>
      simp [hub_subscribe, hub_add_message, hub_unsubscribe, herase, hBne]

/-- C3: the conversation state tracker performs edge detection with an
initially undefined state: the first mapped state is always emitted, a
repeat of the last emitted state emits nothing, a change always emits, and
the frame sequence SessionStart, UserStarted, UserStopped, UserStarted
emits exactly listening, processing, listening (three notifications). -/
theorem conversation_state_edge_detection :
    (∀ s, csp_notify none s = (some s, [TransportPayload.stateUpdate s]))
    ∧ (∀ prev s, csp_notify (some prev) s
        = if prev = s then (some prev, [])
          else (some s, [TransportPayload.stateUpdate s]))
    ∧ (∀ st s, (csp_notify (csp_notify st s).1 s).2 = [])
    ∧ (csp_run none
        [(Frame.startFrame, FrameDirection.downstream),
         (Frame.userStartedSpeaking, FrameDirection.downstream),
         (Frame.userStoppedSpeaking, FrameDirection.downstream),
         (Frame.userStartedSpeaking, FrameDirection.downstream)]).2
      = [TransportPayload.stateUpdate "listening",
         TransportPayload.stateUpdate "processing",
         TransportPayload.stateUpdate "listening"] := by
  refine ⟨?_, ?_, ?_, ?_⟩
  · intro s; simp [csp_notify]
  · intro prev s
    by_cases h : prev = s <;> simp [csp_notify, h]
  · intro st s
    have h1 : (csp_notify st s).1 = some s := by
      by_cases h : st = some s <;> simp [csp_notify, h]
    rw [h1]; simp [csp_notify]
  · rfl

/-- C6: bot transcript flushing.  Feeding TextChunk("Hel"), TextChunk("lo"),
BotStopped appends exactly one hub entry with text "Hello", empties the
buffer, and pushes no per-chunk snapshot (only the original frames); a
subsequent BotStopped with the now-empty buffer appends nothing.  In
general, a bot-role BotStopped flushes the trimmed buffer as one entry only
when it is non-empty, and always clears the buffer; a bot-role text chunk
only accumulates (hub untouched, no snapshot pushed). -/
theorem bot_transcript_flush :
    (∀ (hub : HubState) (t1 t2 t3 t4 : String),
      (tp_run ⟨Role.bot, ""⟩ hub
        [(t1, Frame.textFrame "Hel", FrameDirection.downstream),
         (t2, Frame.textFrame "lo", FrameDirection.downstream),
         (t3, Frame.botStoppedSpeaking, FrameDirection.downstream)]).2.1.messages
        = hub.messages ++ [⟨"bot", "Hello", t3⟩]
      ∧ (tp_run ⟨Role.bot, ""⟩ hub
          [(t1, Frame.textFrame "Hel", FrameDirection.downstream),
           (t2, Frame.textFrame "lo", FrameDirection.downstream),
           (t3, Frame.botStoppedSpeaking, FrameDirection.downstream)]).1
        = ⟨Role.bot, ""⟩
      ∧ (tp_run ⟨Role.bot, ""⟩ hub
          [(t1, Frame.textFrame "Hel", FrameDirection.downstream),
           (t2, Frame.textFrame "lo", FrameDirection.downstream),
           (t3, Frame.botStoppedSpeaking, FrameDirection.downstream)]).2.2
        = [(Frame.textFrame "Hel", FrameDirection.downstream),
           (Frame.textFrame "lo", FrameDirection.downstream),
           (Frame.botStoppedSpeaking, FrameDirection.downstream)]
      ∧ (tp_process_frame ⟨Role.bot, ""⟩
          (tp_run ⟨Role.bot, ""⟩ hub
            [(t1, Frame.textFrame "Hel", FrameDirection.downstream),
             (t2, Frame.textFrame "lo", FrameDirection.downstream),
             (t3, Frame.botStoppedSpeaking, FrameDirection.downstream)]).2.1
          t4 Frame.botStoppedSpeaking FrameDirection.downstream).2.1.messages
        = hub.messages ++ [⟨"bot", "Hello", t3⟩])
    ∧ (∀ (buf : String) (hub : HubState) (time : String) (d : FrameDirection),
      tp_process_frame ⟨Role.bot, buf⟩ hub time Frame.botStoppedSpeaking d
        = (⟨Role.bot, ""⟩,
           (if pyStrip buf = "" then hub
            else (hub_add_message hub "bot" (pyStrip buf) time).1),
           [(Frame.botStoppedSpeaking, d)]))
    ∧ (∀ (buf t : String) (hub : HubState) (time : String) (d : FrameDirection),
      tp_process_frame ⟨Role.bot, buf⟩ hub time (Frame.textFrame t) d
        = (⟨Role.bot, buf ++ t⟩, hub, [(Frame.textFrame t, d)])) := by
  have hflush : ∀ (buf : String) (hub : HubState) (time : String) (d : FrameDirection),
      tp_process_frame ⟨Role.bot, buf⟩ hub time Frame.botStoppedSpeaking d
        = (⟨Role.bot, ""⟩,
           (if pyStrip buf = "" then hub
            else (hub_add_message hub "bot" (pyStrip buf) time).1),
           [(Frame.botStoppedSpeaking, d)]) := by
    intro buf hub time d
    by_cases h : pyStrip buf = "" <;> simp [tp_process_frame, h]
  refine ⟨?_, hflush, ?_⟩
  · intro hub t1 t2 t3 t4
    exact ⟨rfl, rfl, rfl, rfl⟩
  · intro buf t hub time d
    simp [tp_process_frame]

/-- C10: the hub's entry sequence is cleared only on the observer-endpoint
teardown path.  The `_send_update` failure path removes only the failing
subscriber and leaves the messages intact; `add_message` with failing
deliveries still appends its entry and never clears, even when the failure
removals empty the subscriber set (concrete third conjunct). -/
theorem entries_survive_delivery_failure :
    (∀ (st : HubState) (c : Nat),
      (hub_send_update_failure st c).messages = st.messages)
    ∧ (∀ (st : HubState) (ty msg time : String) (fails : Finset Nat),
      (hub_add_message_failures st ty msg time fails).messages
        = st.messages ++ [⟨ty, msg, time⟩])
    ∧ ((hub_add_message_failures ⟨[⟨"user", "hi", "t0"⟩], {7}⟩ "bot" "ok" "t1" {7}).connections
        = ∅
      ∧ (hub_add_message_failures ⟨[⟨"user", "hi", "t0"⟩], {7}⟩ "bot" "ok" "t1" {7}).messages
        = [⟨"user", "hi", "t0"⟩, ⟨"bot", "ok", "t1"⟩]) := by
  refine ⟨?_, ?_, ?_, ?_⟩
  · intro st c; rfl
  · intro st ty msg time fails
    by_cases h : st.connections = ∅ <;> simp [hub_add_message_failures, h]
  · decide
  · decide

/-- The skip-on-missing-product loop is exactly a `filterMap` over the
resolvable items. -/
theorem resolveItems_eq_filterMap (ps : List ProductData) (items : List OrderItemData) :
    resolveItems ps items
      = items.filterMap
          (fun it => (productById ps it.product_id).map (fun p => mkItemDetail p it)) := by
  induction items with
  | nil => rfl
  | cons item rest ih =>
    cases h : productById ps item.product_id <;>
      simp [resolveItems, h, List.filterMap_cons, ih]

/-- Every detail produced by the loop comes from `mkItemDetail`. -/
theorem mem_resolveItems (ps : List ProductData) (items : List OrderItemData)
    (d : ItemDetail) (hd : d ∈ resolveItems ps items) :
    ∃ p it, d = mkItemDetail p it := by
  induction items with
  | nil => simp [resolveItems] at hd
  | cons item rest ih =>
    cases h : productById ps item.product_id with
    | none => rw [resolveItems, h] at hd; exact ih hd
    | some p =>
      rw [resolveItems, h] at hd
      rcases List.mem_cons.mp hd with h1 | h1
      · exact ⟨p, item, h1⟩
      · exact ih h1

/-- C8: a line item whose product is missing from the product table is
skipped silently; the lookup still succeeds and the summary keeps exactly
the resolvable item lines.  The loop equals a `filterMap` over resolvable
items, the summary header (including the total line) is always produced,
and on the concrete store where order 1003 references a missing product
999 the summary contains exactly the resolvable item's lines. -/
theorem missing_product_skips_line_item :
    (∀ (store : OrderStore) (oid : Nat),
      get_order_items store oid
        = (itemsForOrder store oid).filterMap
            (fun it => (productById store.products it.product_id).map
              (fun p => mkItemDetail p it)))
    ∧ (∀ (store : OrderStore) (order : OrderData),
      (format_order_details store order).take 6
        = [Line.header order.id, Line.orderDate order.order_date,
           Line.statusLine order.status, Line.totalAmount order.total_amount,
           Line.blank, Line.itemsHeader])
    ∧ (get_order_items exStore 1003
        = [{ product_name := "Widget", quantity := 2, unit_price := 5,
             total := 10, sku := "SKU-1" }]
      ∧ format_order_details exStore exOrder
        = [Line.header 1003, Line.orderDate "2024-01-01 10:00",
           Line.statusLine OrderStatus.shipped, Line.totalAmount 50,
           Line.blank, Line.itemsHeader,
           Line.itemName "Widget", Line.itemQuantity 2,
           Line.itemPrice 5, Line.itemSubtotal 10]) := by
  refine ⟨?_, ?_, ?_, ?_⟩
  · intro store oid
    exact resolveItems_eq_filterMap store.products (itemsForOrder store oid)
  · intro store order
    rw [format_order_details]
    cases h : (get_order_items store order.id).isEmpty <;> simp [h]
  · norm_num [get_order_items, itemsForOrder, resolveItems, productById, mkItemDetail,
      exStore, exProduct, List.filter]
  · norm_num [format_order_details, get_order_items, itemsForOrder, resolveItems,
      productById, mkItemDetail, exStore, exProduct, exOrder, List.filter, itemLines]

/-- C9: order summary arithmetic.  For an order present in the store, every
resolvable item line carries a subtotal equal to quantity * unitPrice, and
the summary reports as total amount the stored `total_amount` field of the
order record (each subtotal line appears in the summary); nothing relates
that stored total to the sum of the subtotals. -/
theorem order_summary_arithmetic (store : OrderStore) (oid : Nat) (order : OrderData)
    (_h : get_order_by_id store oid = some order) :
    (∀ d ∈ get_order_items store order.id,
      d.total = d.unit_price * (d.quantity : ℚ))
    ∧ Line.totalAmount order.total_amount ∈ format_order_details store order
    ∧ (∀ d ∈ get_order_items store order.id,
      Line.itemSubtotal (d.unit_price * (d.quantity : ℚ))
        ∈ format_order_details store order) := by
  have hsub : ∀ d ∈ get_order_items store order.id,
      d.total = d.unit_price * (d.quantity : ℚ) := by
    intro d hd
    obtain ⟨p, it, rfl⟩ := mem_resolveItems store.products (itemsForOrder store order.id) d hd
    rfl
  refine ⟨hsub, ?_, ?_⟩
  · simp [format_order_details]
  · intro d hd
    have hmem : Line.itemSubtotal d.total ∈ format_order_details store order := by
      have hne : (get_order_items store order.id).isEmpty = false :=
        List.isEmpty_eq_false_iff_exists_mem.mpr ⟨d, hd⟩
      rw [format_order_details]
      simp only [hne, Bool.false_eq_true, if_false, List.mem_append]
      right
      exact List.mem_flatMap.mpr ⟨d, hd, by simp [itemLines]⟩
    rw [← hsub d hd]
    exact hmem

/-- Witness for C9 on the concrete store: order 1003 is present, its stored
total (50) differs from the sum of its resolvable item subtotals (10), and
the theorem's conclusions hold at this input. -/
theorem order_summary_arithmetic_witness :
    get_order_by_id exStore 1003 = some exOrder
    ∧ exOrder.total_amount ≠ ((get_order_items exStore 1003).map ItemDetail.total).sum
    ∧ ((∀ d ∈ get_order_items exStore exOrder.id,
        d.total = d.unit_price * (d.quantity : ℚ))
      ∧ Line.totalAmount exOrder.total_amount ∈ format_order_details exStore exOrder
      ∧ (∀ d ∈ get_order_items exStore exOrder.id,
        Line.itemSubtotal (d.unit_price * (d.quantity : ℚ))
          ∈ format_order_details exStore exOrder)) := by
  refine ⟨rfl, ?_, order_summary_arithmetic exStore 1003 exOrder rfl⟩
  norm_num [get_order_items, itemsForOrder, resolveItems, productById, mkItemDetail,
    exStore, exProduct, exOrder, List.filter]

/-- C7: a repeated order number is not re-processed.  When the number
extracted from a Downstream text frame equals the previously extracted one,
the processor performs no store lookup, injects nothing, leaves its whole
state unchanged, and still forwards the original frame; conversely a
lookup happens only when a number was extracted that differs from the
previously extracted one. -/
theorem repeated_order_number_not_reprocessed :
    (∀ (store : OrderStore) (st : OrderKnowledgeState) (t n : String),
      extract_order_number (pyStrip t) = some n →
      st.last_detected_order_number = some n →
      ok_process_frame store st (Frame.textFrame t) FrameDirection.downstream
        = (st, [(Frame.textFrame t, FrameDirection.downstream)], []))
    ∧ (∀ (store : OrderStore) (st : OrderKnowledgeState) (t : String),
      (ok_process_frame store st (Frame.textFrame t) FrameDirection.downstream).2.2 ≠ [] →
      ∃ n, extract_order_number (pyStrip t) = some n
        ∧ st.last_detected_order_number ≠ some n) := by
  constructor
  · intro store st t n h1 h2
    have htext : pyStrip t ≠ "" := by
      intro hx
      rw [hx] at h1
      exact Option.noConfusion h1
    have hcond : ¬some n ≠ st.last_detected_order_number := by
      rw [h2]; simp
    simp only [ok_process_frame, if_neg htext, h1, if_neg hcond]
  · intro store st t h
    by_cases h0 : pyStrip t = ""
    · exfalso
      apply h
      simp only [ok_process_frame, if_pos h0]
    · cases hx : extract_order_number (pyStrip t) with
      | none =>
        exfalso
        apply h
        simp only [ok_process_frame, if_neg h0, hx]
        by_cases hi : (detect_order_intent (pyStrip t) && !st.awaiting_order_number) = true
        · simp [hi]
        · simp [hi]
      | some n =>
        by_cases hcond : some n ≠ st.last_detected_order_number
        · exact ⟨n, rfl, fun hyx => hcond hyx.symm⟩
        · exfalso
          apply h
          simp only [ok_process_frame, if_neg h0, hx, if_neg hcond]

/-- Witness for C7: a state that has already extracted `1003` processing
the text `order 1003` again — unchanged state, frame forwarded, no lookup. -/
theorem repeated_order_number_not_reprocessed_witness :
    extract_order_number (pyStrip "order 1003") = some "1003"
    ∧ exOKState.last_detected_order_number = some "1003"
    ∧ ok_process_frame exStore exOKState (Frame.textFrame "order 1003")
        FrameDirection.downstream
      = (exOKState, [(Frame.textFrame "order 1003", FrameDirection.downstream)], []) :=
  ⟨rfl, rfl,
   (repeated_order_number_not_reprocessed).1 exStore exOKState "order 1003" "1003" rfl rfl⟩

/-- A successful `\d{3,}` match captures the greedy digit run at the head. -/
theorem matchDigits3_factor (cs ds : List Char) (h : matchDigits3 cs = some ds) :
    ∃ suf, cs = ds ++ suf ∧ ds.all isPyDigit = true ∧ 3 ≤ ds.length := by
  simp only [matchDigits3] at h
  by_cases hlen : 3 ≤ (cs.takeWhile isPyDigit).length
  · rw [if_pos hlen] at h
    injection h with h
    subst h
    refine ⟨cs.dropWhile isPyDigit, (List.takeWhile_append_dropWhile _ _).symm, ?_, hlen⟩
    exact List.all_eq_true.mpr (fun x hx => List.mem_takeWhile_imp hx)
  · rw [if_neg hlen] at h
    exact Option.noConfusion h

/-- A successful tail match is a digit-run match on some suffix. -/
theorem matchTailAfterKw_suffix (cs ds : List Char) (h : matchTailAfterKw cs = some ds) :
    ∃ l, l <:+ cs ∧ matchDigits3 l = some ds := by
  simp only [matchTailAfterKw] at h
  have hsuf1 : cs.dropWhile isPySpace <:+ cs := List.dropWhile_suffix _
  rcases (orElse_eq_some _ _ _).mp h with h1 | ⟨_, h2⟩
  · by_cases hc : startsWithLower ['i', 's'] (cs.dropWhile isPySpace) = true
    · rw [if_pos hc] at h1
      exact ⟨_, (List.dropWhile_suffix _).trans ((List.drop_suffix _ _).trans hsuf1), h1⟩
    · rw [if_neg hc] at h1; exact Option.noConfusion h1
  · rcases (orElse_eq_some _ _ _).mp h2 with h3 | ⟨_, h4⟩
    · by_cases hc : startsWithLower [':'] (cs.dropWhile isPySpace) = true
      · rw [if_pos hc] at h3
        exact ⟨_, (List.dropWhile_suffix _).trans ((List.drop_suffix _ _).trans hsuf1), h3⟩
      · rw [if_neg hc] at h3; exact Option.noConfusion h3
    · exact ⟨_, hsuf1, h4⟩

/-- A successful match of the whole post-`order` pattern is a digit-run
match on some suffix. -/
theorem matchAfterOrder_suffix (cs ds : List Char) (h : matchAfterOrder cs = some ds) :
    ∃ l, l <:+ cs ∧ matchDigits3 l = some ds := by
  simp only [matchAfterOrder] at h
  have hsuf1 : cs.dropWhile isPySpace <:+ cs := List.dropWhile_suffix _
  have lift : ∀ (n : Nat) (l : List Char),
      l <:+ (cs.dropWhile isPySpace).drop n → l <:+ cs :=
    fun n l hl => hl.trans ((List.drop_suffix _ _).trans hsuf1)
  rcases (orElse_eq_some _ _ _).mp h with h1 | ⟨_, h2⟩
  · by_cases hc : startsWithLower ['n', 'u', 'm', 'b', 'e', 'r'] (cs.dropWhile isPySpace) = true
    · rw [if_pos hc] at h1
      obtain ⟨l, hl, hm⟩ := matchTailAfterKw_suffix _ _ h1
      exact ⟨l, lift 6 l hl, hm⟩
    · rw [if_neg hc] at h1; exact Option.noConfusion h1
  · rcases (orElse_eq_some _ _ _).mp h2 with h3 | ⟨_, h4⟩
    · by_cases hc : startsWithLower ['n', 'o'] (cs.dropWhile isPySpace) = true
      · rw [if_pos hc] at h3
        rcases (orElse_eq_some _ _ _).mp h3 with h5 | ⟨_, h6⟩
        · by_cases hd : startsWithLower ['.'] ((cs.dropWhile isPySpace).drop 2) = true
          · rw [if_pos hd] at h5
            obtain ⟨l, hl, hm⟩ := matchTailAfterKw_suffix _ _ h5
            exact ⟨l, lift 3 l hl, hm⟩
          · rw [if_neg hd] at h5; exact Option.noConfusion h5
        · obtain ⟨l, hl, hm⟩ := matchTailAfterKw_suffix _ _ h6
          exact ⟨l, lift 2 l hl, hm⟩
      · rw [if_neg hc] at h3; exact Option.noConfusion h3
    · rcases (orElse_eq_some _ _ _).mp h4 with h5 | ⟨_, h6⟩
      · by_cases hc : startsWithLower ['#'] (cs.dropWhile isPySpace) = true
        · rw [if_pos hc] at h5
          obtain ⟨l, hl, hm⟩ := matchTailAfterKw_suffix _ _ h5
          exact ⟨l, lift 1 l hl, hm⟩
        · rw [if_neg hc] at h5; exact Option.noConfusion h5
      · obtain ⟨l, hl, hm⟩ := matchTailAfterKw_suffix _ _ h6
        exact ⟨l, hl.trans hsuf1, hm⟩

/-- Every number the explicit `order` pattern captures occurs in the text
as a digit run of length at least 3. -/
theorem searchOrderNumber_factor :
    ∀ (cs ds : List Char), searchOrderNumber cs = some ds →
      ∃ pre suf, cs = pre ++ ds ++ suf ∧ ds.all isPyDigit = true ∧ 3 ≤ ds.length := by
  intro cs
  induction cs with
  | nil => intro ds h; simp [searchOrderNumber] at h
  | cons c rest ih =>
    intro ds h
    rw [searchOrderNumber] at h
    rcases (orElse_eq_some _ _ _).mp h with h1 | ⟨_, h2⟩
    · by_cases hc : startsWithLower ['o', 'r', 'd', 'e', 'r'] (c :: rest) = true
      · rw [if_pos hc] at h1
        obtain ⟨l, hl, hm⟩ := matchAfterOrder_suffix _ _ h1
        obtain ⟨suf, hsplit, hall, hlen⟩ := matchDigits3_factor _ _ hm
        have hlc : l <:+ (c :: rest) :=
          hl.trans ((List.drop_suffix 4 rest).trans (List.suffix_cons c rest))
        obtain ⟨pre, hpre⟩ := hlc
        refine ⟨pre, suf, ?_, hall, hlen⟩
        rw [← hpre, hsplit, List.append_assoc]
      · rw [if_neg hc] at h1; exact Option.noConfusion h1
    · obtain ⟨pre, suf, hsplit, hall, hlen⟩ := ih ds h2
      exact ⟨c :: pre, suf, by rw [List.cons_append, List.cons_append, ← hsplit], hall, hlen⟩

/-- Every number the fallback search returns occurs in the text as a digit
run of length at least 3. -/
theorem searchStandaloneFrom_factor :
    ∀ (cs : List Char) (pw : Bool) (ds : List Char),
      searchStandaloneFrom pw cs = some ds →
      ∃ pre suf, cs = pre ++ ds ++ suf ∧ ds.all isPyDigit = true ∧ 3 ≤ ds.length := by
  intro cs
  induction cs with
  | nil => intro pw ds h; simp [searchStandaloneFrom] at h
  | cons c rest ih =>
    intro pw ds h
    simp only [searchStandaloneFrom] at h
    by_cases hstart : (!pw && isPyDigit c) = true
    · rw [if_pos hstart] at h
      by_cases hg : (decide (3 ≤ (c :: rest.takeWhile isPyDigit).length)
          && !(headIsWordChar (rest.dropWhile isPyDigit))) = true
      · rw [if_pos hg] at h
        injection h with h
        subst h
        rw [Bool.and_eq_true] at hg hstart
        refine ⟨[], rest.dropWhile isPyDigit, ?_, ?_, of_decide_eq_true hg.1⟩
        · simp [List.takeWhile_append_dropWhile]
        · simp only [List.all_cons, Bool.and_eq_true]
          exact ⟨hstart.2, List.all_eq_true.mpr (fun x hx => List.mem_takeWhile_imp hx)⟩
      · rw [if_neg hg] at h
        obtain ⟨pre, suf, hsplit, hall, hlen⟩ := ih true ds h
        exact ⟨c :: pre, suf, by rw [List.cons_append, List.cons_append, ← hsplit], hall, hlen⟩
    · rw [if_neg hstart] at h
      obtain ⟨pre, suf, hsplit, hall, hlen⟩ := ih (isWordChar c) ds h
      exact ⟨c :: pre, suf, by rw [List.cons_append, List.cons_append, ← hsplit], hall, hlen⟩

/-- A digit run of length at least 3 anywhere in the text makes
`hasDigitRun3` true. -/
theorem hasDigitRun3_append (pre ds suf : List Char)
    (hall : ds.all isPyDigit = true) (hlen : 3 ≤ ds.length) :
    hasDigitRun3 (pre ++ ds ++ suf) = true := by
  cases ds with
  | nil => simp at hlen
  | cons d1 r1 =>
    cases r1 with
    | nil => simp at hlen
    | cons d2 r2 =>
      cases r2 with
      | nil => simp at hlen
      | cons d3 r3 =>
        simp only [List.all_cons, Bool.and_eq_true] at hall
        obtain ⟨h1, h2, h3, _⟩ := hall
        induction pre with
        | nil => simp [hasDigitRun3, twoDigitsNext, h1, h2, h3]
        | cons p pre' ihp =>
          rw [List.cons_append]
          simp only [hasDigitRun3, Bool.or_eq_true]
          right
          simpa using ihp

/-- Shifting the standalone-run test across the head character. -/
theorem standAux_cons_succ (pw : Bool) (c : Char) (rest : List Char) (i : Nat) :
    standAux pw (c :: rest) (i + 1) = standAux (isWordChar c) rest i := by
  cases i with
  | zero =>
    simp [standAux, runAt, List.getD_cons_zero, List.drop_succ_cons, List.drop_zero]
  | succ k =>
    simp [standAux, runAt, List.getD_cons_succ, List.drop_succ_cons]

/-- The left-to-right fallback search returns exactly the greedy run at the
first index where the standalone-run test holds. -/
theorem searchStandaloneFrom_first :
    ∀ (cs : List Char) (pw : Bool) (i : Nat),
      standAux pw cs i = true → (∀ j, j < i → standAux pw cs j = false) →
      searchStandaloneFrom pw cs = some (runAt cs i) := by
  intro cs
  induction cs with
  | nil =>
    intro pw i h _
    simp [standAux, runAt] at h
  | cons c rest ih =>
    intro pw i h hmin
    by_cases hstart : (!pw && isPyDigit c) = true
    · have hcopy := hstart
      rw [Bool.and_eq_true] at hcopy
      have hpw : pw = false := by simpa using hcopy.1
      have hdig : isPyDigit c = true := hcopy.2
      have h0 : standAux pw (c :: rest) 0
          = (decide (3 ≤ (c :: rest.takeWhile isPyDigit).length)
             && !(headIsWordChar (rest.dropWhile isPyDigit))) := by
        simp [standAux, runAt, hpw, hdig, List.takeWhile_cons, List.dropWhile_cons]
      by_cases hg : (decide (3 ≤ (c :: rest.takeWhile isPyDigit).length)
          && !(headIsWordChar (rest.dropWhile isPyDigit))) = true
      · have hrun : searchStandaloneFrom pw (c :: rest)
            = some (c :: rest.takeWhile isPyDigit) := by
          simp only [searchStandaloneFrom]
          rw [if_pos hstart, if_pos hg]
        have h0t : standAux pw (c :: rest) 0 = true := by rw [h0]; exact hg
        have hi0 : i = 0 := by
          by_contra hne
          have hz := hmin 0 (Nat.pos_of_ne_zero hne)
          rw [hz] at h0t
          exact Bool.noConfusion h0t
        subst hi0
        rw [hrun]
        congr 1
        simp [runAt, List.takeWhile_cons, hdig]
      · have hrec : searchStandaloneFrom pw (c :: rest) = searchStandaloneFrom true rest := by
          simp only [searchStandaloneFrom]
          rw [if_pos hstart, if_neg hg]
        have h0f : standAux pw (c :: rest) 0 = false := by
          rw [h0]; simpa using hg
        obtain ⟨k, rfl⟩ : ∃ k, i = k + 1 := by
          cases i with
          | zero => rw [h0f] at h; exact absurd h (by simp)
          | succ k => exact ⟨k, rfl⟩
        rw [hrec]
        have hw : isWordChar c = true := by
          have hd' : c.isDigit = true := hdig
          simp [isWordChar, Char.isAlphanum, hd']
        have h' : standAux true rest k = true := by
          rw [standAux_cons_succ, hw] at h; exact h
        have hmin' : ∀ j, j < k → standAux true rest j = false := by
          intro j hj
          have hx := hmin (j + 1) (Nat.succ_lt_succ hj)
          rw [standAux_cons_succ, hw] at hx
          exact hx
        rw [ih true k h' hmin']
        congr 1
    · have hrec : searchStandaloneFrom pw (c :: rest)
          = searchStandaloneFrom (isWordChar c) rest := by
        simp only [searchStandaloneFrom]
        rw [if_neg hstart]
      have h0f : standAux pw (c :: rest) 0 = false := by
        by_cases hpw : pw = true
        · simp [standAux, hpw]
        · have hpwf : pw = false := by revert hpw; cases pw <;> simp
          have hdigf : isPyDigit c = false := by
            revert hstart; rw [hpwf]; cases hdc : isPyDigit c <;> simp
          simp [standAux, runAt, List.takeWhile_cons, hdigf, hpwf]
      obtain ⟨k, rfl⟩ : ∃ k, i = k + 1 := by
        cases i with
        | zero => rw [h0f] at h; exact absurd h (by simp)
        | succ k => exact ⟨k, rfl⟩
      rw [hrec]
      have h' : standAux (isWordChar c) rest k = true := by
        rw [standAux_cons_succ] at h; exact h
      have hmin' : ∀ j, j < k → standAux (isWordChar c) rest j = false := by
        intro j hj
        have hx := hmin (j + 1) (Nat.succ_lt_succ hj)
        rw [standAux_cons_succ] at hx
        exact hx
      rw [ih (isWordChar c) k h' hmin']
      congr 1

/-- C4: explicit `order N` phrasing wins.  Whenever the explicit pattern
(a number preceded by `order`, optional `number`/`no.`/`#`, optional
`is`/`:`, at least 3 digits) matches, extraction returns exactly the
number that pattern captured — even when other 3+ digit runs occur
elsewhere (the captured number is always a 3+ digit run occurring in the
text, and the two concrete inputs carry competing earlier 3+ digit runs). -/
theorem explicit_order_pattern_wins :
    (∀ (text : String) (ds : List Char),
      searchOrderNumber text.toList = some ds →
      extract_order_number text = some (String.mk ds))
    ∧ (∀ (cs ds : List Char), searchOrderNumber cs = some ds →
      ∃ pre suf, cs = pre ++ ds ++ suf ∧ ds.all isPyDigit = true ∧ 3 ≤ ds.length)
    ∧ extract_order_number "my bill was 999 dollars for order number is 1003" = some "1003"
    ∧ extract_order_number "pay 555 for ORDER #777 now" = some "777" := by
  refine ⟨?_, searchOrderNumber_factor, ?_, ?_⟩
  · intro text ds h
    have h' : searchOrderNumber text.data = some ds := h
    simp [extract_order_number, h']
  · rfl
  · rfl

/-- Witness for C4: `order 555` matches the explicit pattern and
extraction returns its captured number. -/
theorem explicit_order_pattern_wins_witness :
    searchOrderNumber ("order 555".toList) = some ['5', '5', '5']
    ∧ extract_order_number "order 555" = some (String.mk ['5', '5', '5']) :=
  ⟨rfl, explicit_order_pattern_wins.1 "order 555" ['5', '5', '5'] rfl⟩

/-- C5: fallback extraction.  When the explicit pattern does not match and
a standalone 3+ digit run exists, extraction returns the first such run
(the greedy run at the first index passing the `\b(\d{3,})\b` test); and a
text containing no three consecutive digits (only 1-2 digit numbers)
extracts nothing. -/
theorem fallback_extraction :
    (∀ (text : String) (i : Nat),
      searchOrderNumber text.toList = none →
      standaloneAt text.toList i = true →
      (∀ j, j < i → standaloneAt text.toList j = false) →
      extract_order_number text = some (String.mk (runAt text.toList i)))
    ∧ (∀ text : String, hasDigitRun3 text.toList = false →
      extract_order_number text = none) := by
  constructor
  · intro text i h1 h2 h3
    have hgo : searchStandaloneFrom false text.data = some (runAt text.data i) :=
      searchStandaloneFrom_first text.toList false i h2 h3
    have h1' : searchOrderNumber text.data = none := h1
    simp [extract_order_number, h1', searchStandalone, hgo]
  · intro text h
    cases hx : searchOrderNumber text.toList with
    | some ds =>
      obtain ⟨pre, suf, hsplit, hall, hlen⟩ := searchOrderNumber_factor _ _ hx
      rw [hsplit, hasDigitRun3_append pre ds suf hall hlen] at h
      exact Bool.noConfusion h
    | none =>
      cases hy : searchStandalone text.toList with
      | some ds =>
        obtain ⟨pre, suf, hsplit, hall, hlen⟩ :=
          searchStandaloneFrom_factor text.toList false ds hy
        rw [hsplit, hasDigitRun3_append pre ds suf hall hlen] at h
        exact Bool.noConfusion h
      | none =>
        have hx' : searchOrderNumber text.data = none := hx
        have hy' : searchStandalone text.data = none := hy
        simp [extract_order_number, hx', hy']

/-- Witness for C5: in `give me 4567 now` the first (only) standalone run
starts at index 8 and extraction returns it; `only 12 here` has no 3-digit
run and extracts nothing. -/
theorem fallback_extraction_witness :
    searchOrderNumber ("give me 4567 now".toList) = none
    ∧ standaloneAt ("give me 4567 now".toList) 8 = true
    ∧ (∀ j, j < 8 → standaloneAt ("give me 4567 now".toList) j = false)
    ∧ extract_order_number "give me 4567 now"
        = some (String.mk (runAt ("give me 4567 now".toList) 8))
    ∧ hasDigitRun3 ("only 12 here".toList) = false
    ∧ extract_order_number "only 12 here" = none := by
  refine ⟨rfl, rfl, by decide, ?_, rfl, ?_⟩
  · exact fallback_extraction.1 "give me 4567 now" 8 rfl rfl (by decide)
  · exact fallback_extraction.2 "only 12 here" rfl
